import Mathlib

/-!
# Shallow embedding of `src/main.py` (single-use card / activation-code system)

The Python program `main.py` implements a `CardSystem` class over a SQLite
store.  We embed its four public operations over an explicit store state:

* the `cards` table becomes `List CardRow` (rows in insertion order; the
  `card_id TEXT PRIMARY KEY` uniqueness constraint is carried as a `Nodup`
  hypothesis where a claim needs it);
* strings become `List Char` (Python `str`);
* the HMAC-SHA3-256 signer `hmac.new(key, raw.encode(), 'sha3_256').hexdigest()[:10]`
  is abstracted as a function parameter `sig : List Char → List Char`
  (deterministic because Lean functions are pure, exactly as the source's
  signer is a pure function of `raw` and the fixed deployment key);
  facts the code guarantees about it (output is 10 lowercase hex characters)
  are taken as explicit hypotheses where a claim needs them;
* `CURRENT_TIMESTAMP` becomes an explicit `now : Nat` argument;
* a `sqlite3.Error` infrastructure fault is modelled by a `fault : Bool`
  argument on the operations whose source wraps storage access in
  `try/except sqlite3.Error`; where the source can RAISE out of the
  operation — `hmac.compare_digest` raising `TypeError` on non-ASCII
  string operands in `verify_card` (line 110, before its `try` begins),
  and `sqlite3.connect` raising outside the `try` of `mark_as_used`
  (lines 138-139) — the operation returns `Except PyExn _`, with `.error`
  the uncaught Python exception;
* `secrets.choice(charset)` randomness is modelled by injecting the drawn
  raw parts: `generate_card` receives `raws : Nat → List (List Char)`, the
  list of raw parts the random source yields on each retry attempt.
-/

set_option autoImplicit false

namespace CardSystem

/-- One row of the `cards` table (schema from `INIT_SCRIPT`, main.py lines
10-23): `card_id TEXT PRIMARY KEY`, `raw_part`, `signature`,
`created_at TIMESTAMP DEFAULT CURRENT_TIMESTAMP`,
`is_used BOOLEAN DEFAULT FALSE`, `used_at TIMESTAMP` (nullable),
`usage_count INTEGER DEFAULT 0`. -/
structure CardRow where
  card_id : List Char
  raw_part : List Char
  signature : List Char
  created_at : Nat
  is_used : Bool
  used_at : Option Nat
  usage_count : Nat
deriving DecidableEq, Repr

/-- The raw-part alphabet of `generate_card` (main.py line 62):
`charset = "ABCDEFGHJKLMNPQRSTUVWXYZ23456789!@#$%^&*"`. -/
def charset : List Char := "ABCDEFGHJKLMNPQRSTUVWXYZ23456789!@#$%^&*".data

/-- `f"{raw}#{signature}"` (main.py line 71): the externally visible token. -/
def mkCard (sig : List Char → List Char) (raw : List Char) : List Char :=
  raw ++ '#' :: sig raw

/-- Python `card.split('#', 1)`: split a string at the FIRST occurrence of
`sep`, returning the part before it and the part after it.  (The source
only unpacks the result when `'#' in card`, so the no-occurrence case never
reaches this; we return `(s, [])` there, which is never relied on.) -/
def splitFirst (sep : Char) : List Char → List Char × List Char
  | [] => ([], [])
  | c :: rest =>
    if c = sep then ([], rest)
    else
      let p := splitFirst sep rest
      (c :: p.1, p.2)

/-- `SELECT ... FROM cards WHERE card_id = ?` point lookup: the first (and,
under the primary-key invariant, only) row whose `card_id` equals `c`. -/
def lookupCard (db : List CardRow) (c : List Char) : Option CardRow :=
  db.find? fun r => r.card_id = c

/-- The distinct error messages `verify_card` can set (main.py lines
101-130): "无效卡密格式" (format), "长度不符合要求" (length),
"签名验证失败" (signature), "卡密不存在" (not found),
"数据库错误: ..." (storage). -/
inductive VerifyError where
  | formatError
  | lengthError
  | sigError
  | notFound
  | dbError
deriving DecidableEq, Repr

/-- The `result` dict of `verify_card`: initialised to
`{'valid': False, 'is_used': None, 'usage_count': 0, 'error': None}` and
updated before each return. -/
structure VerifyResult where
  valid : Bool
  is_used : Option Bool
  usage_count : Nat
  error : Option VerifyError
deriving DecidableEq, Repr

/-- The uncaught Python exceptions the engine can raise: `TypeError` from
`hmac.compare_digest` when a string operand contains non-ASCII characters
(main.py line 110, before `verify_card`'s `try` begins), and a
`sqlite3.Error` from `sqlite3.connect`, which `mark_as_used` opens OUTSIDE
its `try` block (main.py lines 138-139). -/
inductive PyExn where
  | typeError
  | sqliteError
deriving DecidableEq, Repr

deriving instance DecidableEq for Except

/-- The operand precondition of `hmac.compare_digest` for `str` arguments:
every character must be ASCII (code point below 128); otherwise it raises
`TypeError` instead of comparing. -/
def isAsciiStr (s : List Char) : Bool := s.all fun c => c.toNat < 128

/-- `CardSystem.verify_card` (main.py lines 87-132).  Ordered checks:
`'#' not in card` → format error; `split('#', 1)` then
`len(raw) != 16 or len(sign) != 10` → length error; then
`hmac.compare_digest(sign, expected_sign)`, which RAISES `TypeError` when
either string operand contains a non-ASCII character — this happens on
line 110, before the `try` begins, so the exception escapes `verify_card`
(`.error .typeError`) — and otherwise is constant-time equality, whose
failure → signature error; then the database lookup inside
`try/except sqlite3.Error`, where a caught fault (modelled by `fault`)
yields the storage error, a missing row yields "not found", and otherwise
the row's `is_used` and `usage_count` are reported with `valid := true`. -/
def verify_card (sig : List Char → List Char) (db : List CardRow)
    (fault : Bool) (card : List Char) : Except PyExn VerifyResult :=
  if '#' ∉ card then .ok ⟨false, none, 0, some .formatError⟩
  else if (splitFirst '#' card).1.length ≠ 16 ∨ (splitFirst '#' card).2.length ≠ 10 then
    .ok ⟨false, none, 0, some .lengthError⟩
  else if ¬ (isAsciiStr (splitFirst '#' card).2 ∧ isAsciiStr (sig (splitFirst '#' card).1)) then
    .error .typeError
  else if (splitFirst '#' card).2 ≠ sig (splitFirst '#' card).1 then
    .ok ⟨false, none, 0, some .sigError⟩
  else if fault then .ok ⟨false, none, 0, some .dbError⟩
  else
    match lookupCard db card with
    | none => .ok ⟨false, none, 0, some .notFound⟩
    | some row => .ok ⟨true, some row.is_used, row.usage_count, none⟩

/-- The row transition of the `UPDATE` in `mark_as_used` (main.py lines
140-147): `is_used = TRUE, used_at = CURRENT_TIMESTAMP,
usage_count = usage_count + 1`. -/
def redeemRow (now : Nat) (r : CardRow) : CardRow :=
  { r with is_used := true, used_at := some now, usage_count := r.usage_count + 1 }

/-- The row-set effect of the `UPDATE` statement in `mark_as_used`
(main.py lines 140-147): every row matching the key undergoes
`redeemRow`, every other row is unchanged. -/
def applyRedeem (now : Nat) (card : List Char) (db : List CardRow) :
    List CardRow :=
  db.map fun r => if r.card_id = card then redeemRow now r else r

/-- `CardSystem.mark_as_used` (main.py lines 134-151).  The connection is
opened by `with self._db_connection()` on line 138, OUTSIDE the
`try/except sqlite3.Error` that begins on line 139: a `sqlite3.Error`
raised by `sqlite3.connect` (modelled by `connectFault`) therefore escapes
the function uncaught (`.error .sqliteError`).  Inside the `try`, a single
`UPDATE` keyed by `card_id` runs; a caught `sqlite3.Error` during
execution or commit (modelled by `execFault`) yields `false` with the
store rolled back; otherwise the function returns
`conn.total_changes > 0` (the connection is fresh, so `total_changes` is
the number of rows the UPDATE matched). -/
def mark_as_used (connectFault execFault : Bool) (now : Nat)
    (db : List CardRow) (card : List Char) :
    Except PyExn (Bool × List CardRow) :=
  if connectFault then .error .sqliteError
  else if execFault then .ok (false, db)
  else .ok (0 < db.countP (fun r => r.card_id = card), applyRedeem now card db)

/-- Build the row `(card_id, raw_part, signature)` inserted for one drawn
raw part (main.py lines 69-71 and 76); the remaining columns take their
schema defaults (`created_at = CURRENT_TIMESTAMP`, `is_used = FALSE`,
`used_at = NULL`, `usage_count = 0`). -/
def mkRow (sig : List Char → List Char) (now : Nat) (raw : List Char) : CardRow :=
  { card_id := mkCard sig raw
    raw_part := raw
    signature := sig raw
    created_at := now
    is_used := false
    used_at := none
    usage_count := 0 }

/-- The `executemany INSERT` of one batch (main.py lines 74-79) inside one
transaction: it succeeds only if no inserted `card_id` violates the primary
key, i.e. the new ids are pairwise distinct and none is already present;
otherwise `sqlite3.IntegrityError` is raised, the transaction is never
committed and closing the connection rolls every row back (`none`). -/
def insertBatch (sig : List Char → List Char) (now : Nat) (db : List CardRow)
    (batch : List (List Char)) : Option (List CardRow) :=
  if ((batch.map (mkRow sig now)).map fun r => r.card_id).Nodup ∧
      ∀ r ∈ batch.map (mkRow sig now), r.card_id ∉ db.map fun r => r.card_id
  then some (db ++ batch.map (mkRow sig now)) else none

/-- The outcomes of `generate_card` other than a normal return:
`RuntimeError("无法生成唯一卡密")` after the attempt budget is spent, and the
`IndexError` raised by `cards[0][0]` when the batch is empty. -/
inductive GenError where
  | exhausted
  | indexError
deriving DecidableEq, Repr

/-- The `while attempts < max_attempts` loop of `generate_card` (main.py
lines 66-85), recursing on the remaining attempts `rem` (initially 5).
`attempt` indexes into the injected randomness so that every retry draws a
FRESH batch, as the source does.  On a successful insert the source
executes `return cards[0][0]`: the first card's id, or an `IndexError`
when the batch is empty. -/
def genGo (sig : List Char → List Char) (now : Nat)
    (raws : Nat → List (List Char)) (batch_size : Nat) (db : List CardRow) :
    Nat → Nat → Except GenError (List Char × List CardRow)
  | _, 0 => .error .exhausted
  | attempt, rem + 1 =>
    match insertBatch sig now db ((raws attempt).take batch_size) with
    | some db2 =>
      match (raws attempt).take batch_size with
      | [] => .error .indexError
      | raw :: _ => .ok (mkCard sig raw, db2)
    | none => genGo sig now raws batch_size db (attempt + 1) rem

/-- `CardSystem.generate_card` (main.py lines 61-85), with the random draws
injected: `raws n` is the stream of 16-character raw parts the
`secrets.choice` loop yields on attempt `n` (the attempt consumes the first
`batch_size` of them).  Returns the first new card's id together with the
resulting store, or the error the Python raises. -/
def generate_card (sig : List Char → List Char) (now : Nat)
    (raws : Nat → List (List Char)) (batch_size : Nat) (db : List CardRow) :
    Except GenError (List Char × List CardRow) :=
  genGo sig now raws batch_size db 0 5

/-- The aggregate row of `get_card_stats` (main.py lines 156-164).  SQL
semantics: `COUNT(*)` is the row count; `SUM` over zero rows is `NULL`
(here `none`) and otherwise the sum — `is_used` is stored as 0/1 so
`SUM(is_used)` counts used rows; `MIN`/`MAX` over zero rows are `NULL`. -/
structure Stats where
  total : Nat
  used_count : Option Nat
  total_uses : Option Nat
  oldest : Option Nat
  newest : Option Nat
deriving DecidableEq, Repr

/-- `CardSystem.get_card_stats` (main.py lines 153-166): the read-only
aggregate query over all cards. -/
def get_card_stats (db : List CardRow) : Stats :=
  { total := db.length
    used_count := if db = [] then none else some (db.countP fun r => r.is_used)
    total_uses := if db = [] then none else some (db.map fun r => r.usage_count).sum
    oldest := (db.map fun r => r.created_at).min?
    newest := (db.map fun r => r.created_at).max? }

/-- The per-record invariant of the spec: `used_at` is set if and only if
`usage_count > 0`. -/
def rowInv (r : CardRow) : Prop :=
  r.used_at.isSome ↔ 0 < r.usage_count

/-- The store-wide invariant: every row satisfies `rowInv`. -/
def dbInv (db : List CardRow) : Prop :=
  ∀ r ∈ db, rowInv r

instance (r : CardRow) : Decidable (rowInv r) := by
  unfold rowInv; infer_instance

instance (db : List CardRow) : Decidable (dbInv db) := by
  unfold dbInv; infer_instance

/-- A concrete stand-in for the abstract signer, used to instantiate closed
statements: it satisfies the length-10, lowercase-hex output shape that
`hexdigest()[:10]` guarantees. -/
def sig0 : List Char → List Char := fun _ => "0000000000".data

/-- A raw part of 16 characters all drawn from `charset` that contains the
separator character, exhibiting the consequence of `'#' ∈ charset`. -/
def rawBad : List Char := "AAAAAAA#AAAAAAAA".data

/-- A well-formed 16-character raw part ('#'-free). -/
def rawA : List Char := "AAAAAAAAAAAAAAAA".data

/-- The token minted from `rawA` under the stand-in signer. -/
def cardA : List Char := mkCard sig0 rawA

/-- A one-row store holding the card minted from `rawA`. -/
def dbA : List CardRow := [mkRow sig0 7 rawA]

/-- The token minted from the separator-carrying raw part `rawBad`. -/
def cardBad : List Char := mkCard sig0 rawBad

/-- A one-row store holding the card minted from `rawBad`, as a successful
`generate_card` call would store it. -/
def dbBad : List CardRow := [mkRow sig0 3 rawBad]

/-! ## Helper lemmas -/

/-- The stand-in signer's output never contains the separator, as the real
hex digest never does. -/
theorem sig0_no_sep : ∀ r, '#' ∉ sig0 r := fun _ => by
  show '#' ∉ "0000000000".data
  decide

/-- The stand-in signer's output is ASCII, as the real hex digest is. -/
theorem sig0_ascii : ∀ r, isAsciiStr (sig0 r) = true := fun _ => by
  show isAsciiStr "0000000000".data = true
  decide

/-- Overwriting one position of an ASCII string with an ASCII character
keeps it ASCII. -/
theorem isAsciiStr_set (s : List Char) (i : Nat) (c : Char)
    (hs : isAsciiStr s = true) (hc : c.toNat < 128) :
    isAsciiStr (s.set i c) = true := by
  simp only [isAsciiStr, List.all_eq_true, decide_eq_true_iff] at hs ⊢
  intro a ha
  rcases List.mem_or_eq_of_mem_set ha with h | h
  · exact hs a h
  · rw [h]
    exact hc

theorem splitFirst_append (sep : Char) (a b : List Char) (ha : sep ∉ a) :
    splitFirst sep (a ++ sep :: b) = (a, b) := by
  induction a with
  | nil => simp [splitFirst]
  | cons c rest ih =>
    simp only [List.mem_cons, not_or] at ha
    have hc : ¬ c = sep := fun h => ha.1 h.symm
    simp only [List.cons_append, splitFirst, if_neg hc, List.append_eq]
    rw [ih ha.2]

theorem splitFirst_recomp (sep : Char) (card : List Char) (h : sep ∈ card) :
    (splitFirst sep card).1 ++ sep :: (splitFirst sep card).2 = card ∧
      sep ∉ (splitFirst sep card).1 := by
  induction card with
  | nil => cases h
  | cons c rest ih =>
    by_cases hc : c = sep
    · subst hc; simp [splitFirst]
    · have hr : sep ∈ rest := by
        rcases List.mem_cons.mp h with h1 | h1
        · exact absurd h1.symm hc
        · exact h1
      have := ih hr
      simp only [splitFirst, if_neg hc]
      refine ⟨by simpa using this.1, ?_⟩
      simp only [List.mem_cons, not_or]
      exact ⟨fun h => hc h.symm, this.2⟩

/-- `find?` over a key-preserving conditional update of every matching row:
the looked-up row is the updated original. -/
theorem lookupCard_map_update (db : List CardRow) (c : List Char)
    (g : CardRow → CardRow) (hg : ∀ r, (g r).card_id = r.card_id) :
    lookupCard (db.map fun r => if r.card_id = c then g r else r) c =
      (lookupCard db c).map g := by
  induction db with
  | nil => rfl
  | cons r rest ih =>
    by_cases hr : r.card_id = c
    · simp [lookupCard, List.find?_cons, hr, hg r]
    · simp [lookupCard, List.find?_cons, hr] at ih ⊢
      exact ih

/-- Under the primary-key invariant, `find?` returns exactly the member row
with the looked-up key. -/
theorem lookupCard_eq_of_mem (db : List CardRow) (r : CardRow)
    (hkey : (db.map fun x => x.card_id).Nodup) (hr : r ∈ db) :
    lookupCard db r.card_id = some r := by
  induction db with
  | nil => cases hr
  | cons s rest ih =>
    simp only [List.map_cons, List.nodup_cons] at hkey
    rcases List.mem_cons.mp hr with h1 | h1
    · subst h1; simp [lookupCard, List.find?_cons]
    · have hne : ¬ s.card_id = r.card_id := by
        intro he
        exact hkey.1 (he ▸ List.mem_map_of_mem (fun x => x.card_id) h1)
      simp [lookupCard, List.find?_cons, hne]
      exact ih hkey.2 h1

/-- At most one row matches a given key under the primary-key invariant. -/
theorem countP_key_le_one (db : List CardRow) (c : List Char)
    (hkey : (db.map fun x => x.card_id).Nodup) :
    db.countP (fun r => r.card_id = c) ≤ 1 := by
  induction db with
  | nil => simp
  | cons r rest ih =>
    simp only [List.map_cons, List.nodup_cons] at hkey
    rw [List.countP_cons]
    by_cases hr : r.card_id = c
    · have hz : rest.countP (fun r => r.card_id = c) = 0 := by
        rw [List.countP_eq_zero]
        intro s hs hsc
        rw [decide_eq_true_iff] at hsc
        exact hkey.1 (by
          rw [← hr] at hsc
          exact hsc ▸ List.mem_map_of_mem (fun x => x.card_id) hs)
      simp [hr, hz]
    · simpa [hr] using ih hkey.2

/-- One row matches the key of a member row, under the primary-key invariant. -/
theorem countP_key_eq_one (db : List CardRow) (r : CardRow)
    (hkey : (db.map fun x => x.card_id).Nodup) (hr : r ∈ db) :
    db.countP (fun x => x.card_id = r.card_id) = 1 := by
  have hle := countP_key_le_one db r.card_id hkey
  have hpos : 0 < db.countP (fun x => x.card_id = r.card_id) :=
    List.countP_pos_iff.mpr ⟨r, hr, by simp⟩
  omega

/-- A token whose raw part (the part before its FIRST separator) is too
short is rejected by the length check, whatever the signer, store and fault
state. -/
theorem verify_card_short_raw (sig : List Char → List Char)
    (db : List CardRow) (fault : Bool) (a rest : List Char)
    (ha : '#' ∉ a) (hlen : a.length ≠ 16) :
    verify_card sig db fault (a ++ '#' :: rest) =
      .ok ⟨false, none, 0, some .lengthError⟩ := by
  unfold verify_card
  rw [if_neg (by simp)]
  simp only [splitFirst_append '#' a rest ha]
  rw [if_pos (Or.inl hlen)]

/-- The `UPDATE` row transition preserves the list of keys. -/
theorem applyRedeem_keys (now : Nat) (card : List Char) (db : List CardRow) :
    ((applyRedeem now card db).map fun x => x.card_id) =
      db.map fun x => x.card_id := by
  unfold applyRedeem
  rw [List.map_map]
  apply List.map_congr_left
  intro r _
  by_cases h : r.card_id = card <;> simp [h, redeemRow]

/-- A structurally well-formed, correctly signed, ASCII-signed token
reaches the database stage of `verify_card`: the result is determined by
the lookup alone. -/
theorem verify_card_wellformed (sig : List Char → List Char)
    (db : List CardRow) (c raw sgn : List Char)
    (hc : c = raw ++ '#' :: sgn) (hraw : '#' ∉ raw)
    (h16 : raw.length = 16) (h10 : sgn.length = 10) (hs : sgn = sig raw)
    (hA : isAsciiStr (sig raw) = true) :
    verify_card sig db false c =
      .ok (match lookupCard db c with
        | none => ⟨false, none, 0, some .notFound⟩
        | some row => ⟨true, some row.is_used, row.usage_count, none⟩) := by
  subst hc
  unfold verify_card
  rw [if_neg (by simp)]
  simp only [splitFirst_append '#' raw sgn hraw]
  rw [if_neg (by simp [h16, h10])]
  rw [if_neg (by simp [hs, hA])]
  rw [if_neg (by simp [hs])]
  rw [if_neg (by simp)]
  cases lookupCard db (raw ++ '#' :: sgn) <;> rfl

/-- One fault-free redeem step on a stored, well-formed card: it reports
`true`, the stored row becomes `redeemRow now r` (so `is_used = true`,
`used_at = now`, `usage_count` incremented by exactly one), and
verification then reports the updated row. -/
theorem redeem_step (sig : List Char → List Char) (db : List CardRow)
    (r : CardRow) (t : Nat)
    (hsigA : ∀ x, isAsciiStr (sig x) = true)
    (hkey : (db.map fun x => x.card_id).Nodup) (hr : r ∈ db)
    (hid : r.card_id = r.raw_part ++ '#' :: r.signature)
    (hraw16 : r.raw_part.length = 16) (hrawsep : '#' ∉ r.raw_part)
    (hsgn : r.signature = sig r.raw_part) (hsgn10 : r.signature.length = 10) :
    mark_as_used false false t db r.card_id =
      .ok (true, applyRedeem t r.card_id db) ∧
    lookupCard (applyRedeem t r.card_id db) r.card_id =
      some (redeemRow t r) ∧
    verify_card sig (applyRedeem t r.card_id db) false r.card_id =
      .ok ⟨true, some true, r.usage_count + 1, none⟩ := by
  have hlook : lookupCard (applyRedeem t r.card_id db) r.card_id =
      some (redeemRow t r) := by
    unfold applyRedeem
    rw [lookupCard_map_update db r.card_id (redeemRow t) (fun _ => rfl)]
    rw [lookupCard_eq_of_mem db r hkey hr]
    rfl
  refine ⟨?_, hlook, ?_⟩
  · have hone := countP_key_eq_one db r hkey hr
    simp only [mark_as_used, Bool.false_eq_true, if_false, Except.ok.injEq,
      Prod.mk.injEq]
    exact ⟨by rw [decide_eq_true_iff]; omega, trivial⟩
  · rw [verify_card_wellformed sig _ r.card_id r.raw_part r.signature hid
      hrawsep hraw16 hsgn10 hsgn (hsigA r.raw_part)]
    rw [hlook]
    rfl

/-- If every attempt in the remaining budget hits a uniqueness violation,
the retry loop runs the budget down and raises the exhaustion error. -/
theorem genGo_exhaust (sig : List Char → List Char) (now : Nat)
    (raws : Nat → List (List Char)) (bs : Nat) (db : List CardRow) :
    ∀ rem attempt,
      (∀ i, attempt ≤ i → i < attempt + rem →
        insertBatch sig now db ((raws i).take bs) = none) →
      genGo sig now raws bs db attempt rem = .error .exhausted := by
  intro rem
  induction rem with
  | zero => intro attempt _; rfl
  | succ rem ih =>
    intro attempt h
    unfold genGo
    rw [h attempt le_rfl (by omega)]
    exact ih (attempt + 1) fun i h1 h2 => h i (by omega) (by omega)

/-- If the first `j` attempts hit uniqueness violations and attempt `j`
inserts its whole batch, the loop returns the batch's first card id and
the store extended by exactly that batch. -/
theorem genGo_success (sig : List Char → List Char) (now : Nat)
    (raws : Nat → List (List Char)) (bs : Nat) (db : List CardRow) :
    ∀ j rem attempt db2 raw rest, j < rem →
      (∀ i, attempt ≤ i → i < attempt + j →
        insertBatch sig now db ((raws i).take bs) = none) →
      insertBatch sig now db ((raws (attempt + j)).take bs) = some db2 →
      (raws (attempt + j)).take bs = raw :: rest →
      genGo sig now raws bs db attempt rem = .ok (mkCard sig raw, db2) := by
  intro j
  induction j with
  | zero =>
    intro rem attempt db2 raw rest hrem hfail hins hbatch
    cases rem with
    | zero => omega
    | succ rem =>
      unfold genGo
      rw [Nat.add_zero] at hins hbatch
      rw [hins, hbatch]
  | succ j ih =>
    intro rem attempt db2 raw rest hrem hfail hins hbatch
    cases rem with
    | zero => omega
    | succ rem =>
      unfold genGo
      rw [hfail attempt le_rfl (by omega)]
      have hidx : attempt + 1 + j = attempt + (j + 1) := by omega
      exact ih rem (attempt + 1) db2 raw rest (by omega)
        (fun i h1 h2 => hfail i (by omega) (by omega))
        (by rw [hidx]; exact hins) (by rw [hidx]; exact hbatch)

/-- A successful batch insert appends exactly the batch's rows. -/
theorem insertBatch_some (sig : List Char → List Char) (now : Nat)
    (db : List CardRow) (batch : List (List Char)) (db2 : List CardRow)
    (h : insertBatch sig now db batch = some db2) :
    db2 = db ++ batch.map (mkRow sig now) := by
  unfold insertBatch at h
  split at h
  · exact (Option.some.injEq _ _ ▸ h).symm
  · cases h

/-- A list is pointwise related to its image under `f` as soon as each
element is related to its own image. -/
theorem forall₂_map_self {R : CardRow → CardRow → Prop} (f : CardRow → CardRow)
    (db : List CardRow) (h : ∀ r, R r (f r)) : List.Forall₂ R db (db.map f) := by
  induction db with
  | nil => constructor
  | cons r rest ih => exact List.Forall₂.cons (h r) ih

/-- A successful `genGo` run got its store from one attempt's whole-batch
insert. -/
theorem genGo_ok_shape (sig : List Char → List Char) (now : Nat)
    (raws : Nat → List (List Char)) (bs : Nat) (db : List CardRow) :
    ∀ rem attempt c db2,
      genGo sig now raws bs db attempt rem = .ok (c, db2) →
      ∃ i, insertBatch sig now db ((raws i).take bs) = some db2 := by
  intro rem
  induction rem with
  | zero => intro attempt c db2 h; simp [genGo] at h
  | succ rem ih =>
    intro attempt c db2 h
    unfold genGo at h
    cases hins : insertBatch sig now db ((raws attempt).take bs) with
    | none =>
      rw [hins] at h
      exact ih (attempt + 1) c db2 h
    | some db3 =>
      rw [hins] at h
      cases hbatch : (raws attempt).take bs with
      | nil => rw [hbatch] at h; simp at h
      | cons raw rest =>
        rw [hbatch] at h
        simp only [Except.ok.injEq, Prod.mk.injEq] at h
        exact ⟨attempt, h.2 ▸ hins⟩

/-! ## Claims -/

/-- C1 (code bug): the spec demands that every card produced by `generate`
immediately verifies with `valid = true`, `is_used = false`,
`usage_count = 0`.  The code violates this: `charset` contains the
separator `'#'`, so `secrets.choice` can draw the 16-character raw part
`rawBad = "AAAAAAA#AAAAAAAA"` (every character is in `charset`); the
minted token then splits at the raw part's own `'#'` during verification
and is rejected with the length error ("长度不符合要求") instead of
verifying, for every signer, store and fault state. -/
theorem generated_card_fails_verification :
    ∀ (sig : List Char → List Char) (db : List CardRow) (fault : Bool),
      rawBad.length = 16 ∧ (∀ c ∈ rawBad, c ∈ charset) ∧
      verify_card sig db fault (mkCard sig rawBad) =
        .ok ⟨false, none, 0, some .lengthError⟩ := by
  intro sig db fault
  refine ⟨by decide, by decide, ?_⟩
  have hraw : rawBad = "AAAAAAA".data ++ '#' :: "AAAAAAAA".data := by decide
  have hcard : mkCard sig rawBad =
      "AAAAAAA".data ++ '#' :: ("AAAAAAAA".data ++ '#' :: sig rawBad) := by
    show rawBad ++ '#' :: sig rawBad = _
    rw [hraw]; simp
  rw [hcard]
  exact verify_card_short_raw sig db fault _ _ (by decide) (by decide)

/-- C2 (code bug): the spec requires the raw-part alphabet to exclude the
separator `'#'` (as well as the visually ambiguous `0/O/1/I`).  The code's
`charset` does exclude `0`, `O`, `1` and `I`, but it CONTAINS the
separator `'#'` (at index 34), so the claimed token shape is not enforced. -/
theorem charset_contains_separator :
    '#' ∈ charset ∧
      '0' ∉ charset ∧ 'O' ∉ charset ∧ '1' ∉ charset ∧ 'I' ∉ charset := by
  decide

/-- C3 counterexample: the token `"##"` contains two separators, yet the
format check does NOT reject it — `'#' not in card` is false — and
verification fails only later, at the length stage.  (The format and
length stages never consult the signer, so the stand-in signer `sig0`
exercises exactly the code path of the real system.) -/
theorem two_separator_token_passes_format_stage :
    ('#' :: ['#']).count '#' = 2 ∧
    verify_card sig0 [] false ('#' :: ['#']) =
      .ok ⟨false, none, 0, some .lengthError⟩ ∧
    verify_card sig0 [] false ('#' :: ['#']) ≠
      .ok ⟨false, none, 0, some .formatError⟩ := by
  decide

/-- C10: calling `generate_card` with `batch_size = 0` makes the first
attempt's `executemany` insert zero rows and succeed, after which
`cards[0][0]` raises `IndexError`: the call returns no card id and never
reaches the generation-exhausted `RuntimeError`, for every signer,
timestamp, random stream and store. -/
theorem generate_card_batch_size_zero :
    ∀ (sig : List Char → List Char) (now : Nat)
      (raws : Nat → List (List Char)) (db : List CardRow),
      generate_card sig now raws 0 db = .error .indexError := by
  intro sig now raws db
  show genGo sig now raws 0 db 0 5 = .error .indexError
  unfold genGo
  simp [insertBatch]

/-- C3 (amended): the format check rejects with the format error exactly
those tokens containing NO separator (`'#' not in card`); a token with two
or more separators passes the format stage — it is split at its first
separator — and is never accepted: it is rejected with the length error,
rejected with the signature-mismatch error, or, when its signature portion
violates `compare_digest`'s ASCII operand requirement, crashes verify with
the uncaught `TypeError` of main.py line 110.  The hypothesis `hsig`
records what the source guarantees of the signer: a hex digest never
contains `'#'`. -/
theorem format_check_rejects_exactly_no_separator
    (sig : List Char → List Char) (db : List CardRow) (fault : Bool)
    (card : List Char) (hsig : ∀ r, '#' ∉ sig r) :
    (verify_card sig db fault card = .ok ⟨false, none, 0, some .formatError⟩ ↔
      '#' ∉ card) ∧
    (2 ≤ card.count '#' →
      verify_card sig db fault card = .ok ⟨false, none, 0, some .lengthError⟩ ∨
      verify_card sig db fault card = .ok ⟨false, none, 0, some .sigError⟩ ∨
      verify_card sig db fault card = .error .typeError) := by
  constructor
  · by_cases hin : '#' ∈ card
    · refine iff_of_false ?_ (by simp [hin])
      unfold verify_card
      rw [if_neg (by simpa using hin)]
      split
      · simp
      · split
        · simp
        · split
          · simp
          · split
            · simp
            · split <;> simp
    · unfold verify_card
      rw [if_pos hin]
      simpa using hin
  · intro h2
    have hin : '#' ∈ card := List.count_pos_iff.mp (by omega)
    obtain ⟨hrec, hnot⟩ := splitFirst_recomp '#' card hin
    have hcnt : card.count '#' = (splitFirst '#' card).2.count '#' + 1 := by
      conv_lhs => rw [← hrec]
      rw [List.count_append, List.count_cons_self, List.count_eq_zero.mpr hnot]
      omega
    have hs : '#' ∈ (splitFirst '#' card).2 := List.count_pos_iff.mp (by omega)
    unfold verify_card
    rw [if_neg (by simpa using hin)]
    by_cases hlen : (splitFirst '#' card).1.length ≠ 16 ∨
        (splitFirst '#' card).2.length ≠ 10
    · rw [if_pos hlen]
      exact Or.inl rfl
    · rw [if_neg hlen]
      by_cases hascii : isAsciiStr (splitFirst '#' card).2 ∧
          isAsciiStr (sig (splitFirst '#' card).1)
      · rw [if_neg (not_not_intro hascii)]
        have hsne : (splitFirst '#' card).2 ≠ sig (splitFirst '#' card).1 := by
          intro he
          exact hsig _ (he ▸ hs)
        rw [if_pos hsne]
        exact Or.inr (Or.inl rfl)
      · rw [if_pos hascii]
        exact Or.inr (Or.inr rfl)

/-- Witness for C3's amended theorem at concrete inputs: the stand-in
signer, an empty store, the separator-free token `"ab"` for the
format-error direction and the two-separator token `"##"` for the
never-accepted direction. -/
theorem format_check_rejects_exactly_no_separator_witness :
    (verify_card sig0 [] false ('a' :: ['b']) =
        .ok ⟨false, none, 0, some .formatError⟩ ↔ '#' ∉ ('a' :: ['b'])) ∧
    (verify_card sig0 [] false ('#' :: ['#']) =
        .ok ⟨false, none, 0, some .lengthError⟩ ∨
      verify_card sig0 [] false ('#' :: ['#']) =
        .ok ⟨false, none, 0, some .sigError⟩ ∨
      verify_card sig0 [] false ('#' :: ['#']) = .error .typeError) :=
  ⟨(format_check_rejects_exactly_no_separator sig0 [] false ('a' :: ['b'])
      sig0_no_sep).1,
   (format_check_rejects_exactly_no_separator sig0 [] false ('#' :: ['#'])
      sig0_no_sep).2 (by decide)⟩

/-- C4 counterexample: a storage fault while OPENING the connection —
which `mark_as_used` does on main.py line 138, OUTSIDE the
`try/except sqlite3.Error` that begins on line 139 — propagates out of
`redeem` as an uncaught `sqlite3.Error` exception instead of yielding
`false`, refuting "any underlying storage fault also yields false, never
an exception". -/
theorem redeem_connect_fault_raises :
    mark_as_used true false 5 dbA cardA = .error .sqliteError ∧
    mark_as_used true false 5 dbA cardA ≠ .ok (false, dbA) := by
  decide

/-- C4 (amended): whenever `redeem` returns a boolean, it returns `true`
exactly when there was no fault and exactly one stored row — under the
`card_id` primary-key invariant `hkey` — matches the supplied token; a
storage fault during statement execution or commit is caught and yields
`false` with the store rolled back, without raising; but a fault while
opening the connection escapes as an uncaught `sqlite3.Error` exception,
because the connection is opened outside the `try` block. -/
theorem mark_as_used_true_iff_one_row (ef : Bool) (now : Nat)
    (db : List CardRow) (card : List Char)
    (hkey : (db.map fun r => r.card_id).Nodup) :
    (∀ b db2, mark_as_used false ef now db card = .ok (b, db2) →
      (b = true ↔ ef = false ∧ db.countP (fun r => r.card_id = card) = 1)) ∧
    mark_as_used false true now db card = .ok (false, db) ∧
    (∀ ef2, mark_as_used true ef2 now db card = .error .sqliteError) := by
  have hle := countP_key_le_one db card hkey
  refine ⟨?_, rfl, fun ef2 => rfl⟩
  intro b db2 h
  cases ef with
  | true =>
    have h2 : (Except.ok ((false : Bool), db) :
        Except PyExn (Bool × List CardRow)) = .ok (b, db2) := h
    injection h2 with h3
    injection h3 with hb hdb
    subst hb
    simp
  | false =>
    have h2 : (Except.ok
        ((0 < db.countP fun r => r.card_id = card : Bool),
          applyRedeem now card db) :
        Except PyExn (Bool × List CardRow)) = .ok (b, db2) := h
    injection h2 with h3
    injection h3 with hb hdb
    subst hb
    simp only [decide_eq_true_iff]
    constructor
    · intro hpos
      exact ⟨trivial, by omega⟩
    · rintro ⟨-, h1⟩
      omega

/-- Witness for C4's amended theorem at concrete inputs: the one-row store
`dbA` and its own card id (one matching row, result `true`); the caught
execution-fault case returns `false` with the store unchanged. -/
theorem mark_as_used_true_iff_one_row_witness :
    ((true : Bool) = true ↔ (false : Bool) = false ∧
      dbA.countP (fun r => r.card_id = cardA) = 1) ∧
    mark_as_used false true 5 dbA cardA = .ok (false, dbA) := by
  have h := mark_as_used_true_iff_one_row false 5 dbA cardA (by decide)
  exact ⟨h.1 true (applyRedeem 5 cardA dbA) (by decide), h.2.1⟩

/-- C5 counterexample: `dbBad` stores the card `cardBad` exactly as a
successful `generate_card` call would (its raw part `rawBad` is 16
characters from `charset`), unredeemed.  `redeem` on it returns `true`,
yet `verify` afterwards does NOT report `is_used = true` and
`usage_count = 1`: the raw part contains `'#'`, so verification rejects
the stored card at the length stage (`is_used` stays `none` and
`usage_count` stays `0`). -/
theorem redeem_then_verify_counterexample :
    mark_as_used false false 9 dbBad cardBad =
      .ok (true, applyRedeem 9 cardBad dbBad) ∧
    verify_card sig0 (applyRedeem 9 cardBad dbBad) false cardBad =
      .ok ⟨false, none, 0, some .lengthError⟩ := by
  decide

/-- C5 (amended): for every stored, unredeemed card whose raw part is
separator-free and which carries the well-formed `16 + '#' + 10` shape
with the matching signature — i.e. every stored card `verify` can parse —
`redeem` returns `true` and `verify` then reports `is_used = true` and
`usage_count = 1`; a second `redeem` returns `true` again and
`usage_count` becomes `2`; each successful redeem increments
`usage_count` by exactly one and sets `used_at` to the redemption
timestamp. -/
theorem redeem_transition (sig : List Char → List Char) (db : List CardRow)
    (r : CardRow) (t1 t2 : Nat)
    (hsigA : ∀ x, isAsciiStr (sig x) = true)
    (hkey : (db.map fun x => x.card_id).Nodup) (hr : r ∈ db)
    (hid : r.card_id = r.raw_part ++ '#' :: r.signature)
    (hraw16 : r.raw_part.length = 16) (hrawsep : '#' ∉ r.raw_part)
    (hsgn : r.signature = sig r.raw_part) (hsgn10 : r.signature.length = 10)
    (hcount : r.usage_count = 0) :
    mark_as_used false false t1 db r.card_id =
      .ok (true, applyRedeem t1 r.card_id db) ∧
    verify_card sig (applyRedeem t1 r.card_id db) false r.card_id =
      .ok ⟨true, some true, 1, none⟩ ∧
    lookupCard (applyRedeem t1 r.card_id db) r.card_id =
      some (redeemRow t1 r) ∧
    (redeemRow t1 r).used_at = some t1 ∧
    (redeemRow t1 r).usage_count = r.usage_count + 1 ∧
    mark_as_used false false t2 (applyRedeem t1 r.card_id db) r.card_id =
      .ok (true, applyRedeem t2 r.card_id (applyRedeem t1 r.card_id db)) ∧
    verify_card sig (applyRedeem t2 r.card_id (applyRedeem t1 r.card_id db))
        false r.card_id =
      .ok ⟨true, some true, 2, none⟩ := by
  obtain ⟨hb1, hlook1, hv1⟩ :=
    redeem_step sig db r t1 hsigA hkey hr hid hraw16 hrawsep hsgn hsgn10
  have hkey1 :
      (((applyRedeem t1 r.card_id db).map fun x => x.card_id)).Nodup := by
    rw [applyRedeem_keys]; exact hkey
  have hr1 : redeemRow t1 r ∈ applyRedeem t1 r.card_id db :=
    List.mem_of_find?_eq_some hlook1
  obtain ⟨hb2, hlook2, hv2⟩ :=
    redeem_step sig (applyRedeem t1 r.card_id db) (redeemRow t1 r) t2
      hsigA hkey1 hr1 hid hraw16 hrawsep hsgn hsgn10
  have hcid : (redeemRow t1 r).card_id = r.card_id := rfl
  rw [hcid] at hb2 hv2
  refine ⟨hb1, ?_, hlook1, rfl, rfl, hb2, ?_⟩
  · rw [hv1, hcount]
  · rw [hv2]
    show Except.ok (⟨true, some true, r.usage_count + 1 + 1, none⟩ : VerifyResult) = _
    rw [hcount]

/-- Witness for C5's amended theorem: the stored well-formed card of `dbA`
redeemed at time 11 reports `true` and then verifies as used once. -/
theorem redeem_transition_witness :
    mark_as_used false false 11 dbA (mkRow sig0 7 rawA).card_id =
      .ok (true, applyRedeem 11 (mkRow sig0 7 rawA).card_id dbA) ∧
    verify_card sig0 (applyRedeem 11 (mkRow sig0 7 rawA).card_id dbA)
      false (mkRow sig0 7 rawA).card_id = .ok ⟨true, some true, 1, none⟩ := by
  have h := redeem_transition sig0 dbA (mkRow sig0 7 rawA) 11 12 sig0_ascii
    (by decide) (by decide) rfl (by decide) (by decide) rfl (by decide) rfl
  exact ⟨h.1, h.2.1⟩

/-- C6: the whole-batch retry protocol of `generate_card`.  If every one of
the 5 attempts' freshly drawn batches hits a uniqueness violation, the call
fails with the generation-exhausted error (`RuntimeError`), returning no
card id and no store; and when the first `j` attempts collide but attempt
`j`'s batch inserts, the call returns that batch's first card id together
with the store extended by exactly that full batch — never a partial one. -/
theorem generate_retry_exhaustion (sig : List Char → List Char) (now : Nat)
    (raws : Nat → List (List Char)) (bs : Nat) (db : List CardRow) :
    ((∀ i, i < 5 → insertBatch sig now db ((raws i).take bs) = none) →
      generate_card sig now raws bs db = .error .exhausted) ∧
    (∀ j db2 raw rest, j < 5 →
      (∀ i, i < j → insertBatch sig now db ((raws i).take bs) = none) →
      insertBatch sig now db ((raws j).take bs) = some db2 →
      (raws j).take bs = raw :: rest →
      generate_card sig now raws bs db = .ok (mkCard sig raw, db2)) := by
  constructor
  · intro h
    exact genGo_exhaust sig now raws bs db 5 0 fun i h1 h2 => h i (by omega)
  · intro j db2 raw rest hj hfail hins hbatch
    exact genGo_success sig now raws bs db j 5 0 db2 raw rest hj
      (fun i h1 h2 => hfail i (by omega))
      (by rw [Nat.zero_add]; exact hins) (by rw [Nat.zero_add]; exact hbatch)

/-- Witness for C6 at concrete inputs: a random stream that keeps drawing
`rawA`.  Against `dbA` (which already stores `rawA`'s card) all 5 attempts
collide and the call is exhausted; against the empty store the first
attempt succeeds and returns `cardA` with the one full inserted row. -/
theorem generate_retry_exhaustion_witness :
    generate_card sig0 0 (fun _ => [rawA]) 1 dbA = .error .exhausted ∧
    generate_card sig0 0 (fun _ => [rawA]) 1 [] =
      .ok (mkCard sig0 rawA, [mkRow sig0 0 rawA]) :=
  ⟨(generate_retry_exhaustion sig0 0 (fun _ => [rawA]) 1 dbA).1
      (by decide),
   (generate_retry_exhaustion sig0 0 (fun _ => [rawA]) 1 []).2
      0 [mkRow sig0 0 rawA] rawA [] (by decide) (by omega) (by decide) rfl⟩

/-- C7: on the empty store `get_card_stats` returns, without error, total 0
and NULL (`none`) aggregates — SQL `SUM`/`MIN`/`MAX` over zero rows; on a
non-empty store it returns the count of all cards, the count of cards with
`is_used` true, the sum of all `usage_count` values, and the earliest and
latest `created_at` (an actually-occurring minimum and maximum). -/
theorem stats_aggregates (db : List CardRow) :
    get_card_stats [] = ⟨0, none, none, none, none⟩ ∧
    (get_card_stats db).total = db.length ∧
    (db ≠ [] →
      (get_card_stats db).used_count = some (db.countP fun r => r.is_used) ∧
      (get_card_stats db).total_uses = some (db.map fun r => r.usage_count).sum ∧
      (∃ m ∈ db.map fun r => r.created_at, (get_card_stats db).oldest = some m ∧
        ∀ t ∈ db.map fun r => r.created_at, m ≤ t) ∧
      (∃ m ∈ db.map fun r => r.created_at, (get_card_stats db).newest = some m ∧
        ∀ t ∈ db.map fun r => r.created_at, t ≤ m)) := by
  refine ⟨rfl, rfl, fun hne => ?_⟩
  have hmapne : db.map (fun r => r.created_at) ≠ [] := by simpa using hne
  refine ⟨by simp [get_card_stats, hne], by simp [get_card_stats, hne], ?_, ?_⟩
  · obtain ⟨m, hm⟩ : ∃ m, (db.map fun r => r.created_at).min? = some m := by
      cases h : (db.map fun r => r.created_at).min? with
      | none => exact absurd (List.min?_eq_none_iff.mp h) hmapne
      | some m => exact ⟨m, rfl⟩
    have hchar := (List.min?_eq_some_iff (fun a => le_refl a) min_choice
      (fun _ _ _ => le_min_iff)).mp hm
    exact ⟨m, hchar.1, by simp [get_card_stats, hm], hchar.2⟩
  · obtain ⟨m, hm⟩ : ∃ m, (db.map fun r => r.created_at).max? = some m := by
      cases h : (db.map fun r => r.created_at).max? with
      | none => exact absurd (List.max?_eq_none_iff.mp h) hmapne
      | some m => exact ⟨m, rfl⟩
    have hchar := (List.max?_eq_some_iff (fun a => le_refl a) max_choice
      (fun _ _ _ => max_le_iff)).mp hm
    exact ⟨m, hchar.1, by simp [get_card_stats, hm], hchar.2⟩

/-- Witness for C7 at a concrete input: the one-row store `dbA`. -/
theorem stats_aggregates_witness :
    (get_card_stats dbA).used_count = some (dbA.countP fun r => r.is_used) ∧
    (∃ m ∈ dbA.map fun r => r.created_at, (get_card_stats dbA).oldest = some m ∧
      ∀ t ∈ dbA.map fun r => r.created_at, m ≤ t) := by
  have h := (stats_aggregates dbA).2.2 (by decide)
  exact ⟨h.1, h.2.2.1⟩

/-- C8: lifecycle invariants.  A successful `generate_card` only APPENDS
rows, each created with `usage_count = 0`, `used_at = NULL` and
`is_used = FALSE` (the schema defaults), leaving existing rows untouched
and preserving the used-at/usage-count invariant.  Whenever
`mark_as_used` returns a store (it raises on a connect-time fault, in
which case nothing was executed), that store relates every original row
to its successor: the key is unchanged, `usage_count` never decreases,
and either the row is untouched or — on the one redeeming transition —
`used_at := now` and `usage_count + 1` are set together with
`is_used := TRUE`; the invariant is preserved.  (`verify` and `stats`
take the store and return only a result value: the embedding types make
them read-only.) -/
theorem lifecycle_invariants (sig : List Char → List Char) (now : Nat) :
    (∀ (raws : Nat → List (List Char)) (bs : Nat) (db : List CardRow)
        (c : List Char) (db2 : List CardRow),
      generate_card sig now raws bs db = .ok (c, db2) →
      ∃ newRows, db2 = db ++ newRows ∧
        (∀ r ∈ newRows, r.usage_count = 0 ∧ r.used_at = none ∧ r.is_used = false) ∧
        (dbInv db → dbInv db2)) ∧
    (∀ (cf ef : Bool) (t : Nat) (db : List CardRow) (card : List Char)
        (b : Bool) (db2 : List CardRow),
      mark_as_used cf ef t db card = .ok (b, db2) →
      List.Forall₂ (fun r r2 =>
          r.card_id = r2.card_id ∧ r.usage_count ≤ r2.usage_count ∧
          (r2 = r ∨ (r2.used_at = some t ∧ r2.usage_count = r.usage_count + 1 ∧
            r2.is_used = true)))
        db db2 ∧
      (dbInv db → dbInv db2)) := by
  constructor
  · intro raws bs db c db2 hgen
    obtain ⟨i, hins⟩ := genGo_ok_shape sig now raws bs db 5 0 c db2 hgen
    refine ⟨((raws i).take bs).map (mkRow sig now),
      insertBatch_some sig now db _ db2 hins, ?_, ?_⟩
    · intro r hr
      obtain ⟨raw, -, hraw⟩ := List.mem_map.mp hr
      exact ⟨by rw [← hraw]; rfl, by rw [← hraw]; rfl, by rw [← hraw]; rfl⟩
    · intro hinv r hr
      rw [insertBatch_some sig now db _ db2 hins] at hr
      rcases List.mem_append.mp hr with h1 | h1
      · exact hinv r h1
      · obtain ⟨raw, -, hraw⟩ := List.mem_map.mp h1
        rw [← hraw]
        show (none : Option Nat).isSome ↔ 0 < 0
        simp
  · intro cf ef t db card b db2 h
    cases cf with
    | true => exact Except.noConfusion h
    | false =>
      cases ef with
      | true =>
        have h2 : (Except.ok ((false : Bool), db) :
            Except PyExn (Bool × List CardRow)) = .ok (b, db2) := h
        injection h2 with h3
        injection h3 with hb hdb
        subst hdb
        refine ⟨?_, fun hinv => hinv⟩
        rw [List.forall₂_same]
        intro r _
        exact ⟨rfl, le_refl _, Or.inl rfl⟩
      | false =>
        have h2 : (Except.ok
            ((0 < db.countP fun r => r.card_id = card : Bool),
              applyRedeem t card db) :
            Except PyExn (Bool × List CardRow)) = .ok (b, db2) := h
        injection h2 with h3
        injection h3 with hb hdb
        subst hdb
        constructor
        · unfold applyRedeem
          apply forall₂_map_self
          intro r
          by_cases hc : r.card_id = card
          · rw [if_pos hc]
            exact ⟨rfl, Nat.le_succ _, Or.inr ⟨rfl, rfl, rfl⟩⟩
          · rw [if_neg hc]
            exact ⟨rfl, le_refl _, Or.inl rfl⟩
        · intro hinv r2 hr2
          unfold applyRedeem at hr2
          obtain ⟨r, hrm, hrr⟩ := List.mem_map.mp hr2
          by_cases hc : r.card_id = card
          · rw [if_pos hc] at hrr
            rw [← hrr]
            show (some t).isSome ↔ 0 < r.usage_count + 1
            simp
          · rw [if_neg hc] at hrr
            rw [← hrr]
            exact hinv r hrm

/-- Witness for C8 at concrete inputs: generating one card into the empty
store yields exactly one zero-initialised row, and redeeming in `dbA`
preserves the invariant. -/
theorem lifecycle_invariants_witness :
    (∃ newRows, ([mkRow sig0 0 rawA] : List CardRow) = [] ++ newRows ∧
      (∀ r ∈ newRows, r.usage_count = 0 ∧ r.used_at = none ∧ r.is_used = false) ∧
      (dbInv [] → dbInv [mkRow sig0 0 rawA])) ∧
    dbInv (applyRedeem 4 cardA dbA) := by
  have h := lifecycle_invariants sig0 0
  refine ⟨h.1 (fun _ => [rawA]) 1 [] cardA [mkRow sig0 0 rawA] ?_, ?_⟩
  · rfl
  · exact (h.2 false false 4 dbA cardA true (applyRedeem 4 cardA dbA)
      (by decide)).2 (by decide)

/-- Inversion: a card that verifies as valid passed every structural and
cryptographic check, including `compare_digest`'s ASCII operand
requirement. -/
theorem verify_valid_spec (sig : List Char → List Char) (db : List CardRow)
    (fault : Bool) (card : List Char) (res : VerifyResult)
    (hok : verify_card sig db fault card = .ok res)
    (hvalid : res.valid = true) :
    '#' ∈ card ∧ (splitFirst '#' card).1.length = 16 ∧
    (splitFirst '#' card).2.length = 10 ∧
    isAsciiStr (splitFirst '#' card).2 = true ∧
    isAsciiStr (sig (splitFirst '#' card).1) = true ∧
    (splitFirst '#' card).2 = sig (splitFirst '#' card).1 := by
  unfold verify_card at hok
  by_cases h1 : '#' ∉ card
  · rw [if_pos h1] at hok
    cases hok
    simp at hvalid
  · rw [if_neg h1] at hok
    by_cases h2 : (splitFirst '#' card).1.length ≠ 16 ∨
        (splitFirst '#' card).2.length ≠ 10
    · rw [if_pos h2] at hok
      cases hok
      simp at hvalid
    · rw [if_neg h2] at hok
      push_neg at h2
      by_cases hA : ¬ (isAsciiStr (splitFirst '#' card).2 ∧
          isAsciiStr (sig (splitFirst '#' card).1))
      · rw [if_pos hA] at hok
        exact Except.noConfusion hok
      · rw [if_neg hA] at hok
        have hAB := not_not.mp hA
        by_cases h3 : (splitFirst '#' card).2 ≠ sig (splitFirst '#' card).1
        · rw [if_pos h3] at hok
          cases hok
          simp at hvalid
        · push_neg at h3
          exact ⟨not_not.mp h1, h2.1, h2.2, hAB.1, hAB.2, h3⟩

/-- C9 counterexample: `cardA` is stored and verifies as valid, yet
replacing the first character of its signature portion with the different
character `'é'` does NOT make `verify` return the signature-mismatch
error: the tampered token still passes the format and length checks, and
then `hmac.compare_digest` raises `TypeError` on the non-ASCII operand
(main.py line 110, outside any handler), crashing `verify` instead of
returning a result. -/
theorem signature_tamper_counterexample :
    verify_card sig0 dbA false cardA = .ok ⟨true, some false, 0, none⟩ ∧
    verify_card sig0 dbA false
        ((splitFirst '#' cardA).1 ++ '#' :: (splitFirst '#' cardA).2.set 0 'é') =
      .error .typeError := by
  decide

/-- C9 (amended): take any card that `verify` accepts as valid, and
replace the `i`-th character of its signature portion (the part after the
first separator) with a different ASCII character: the resulting token is
rejected with the signature-mismatch error — never accepted and never
rejected with a different error — whatever the store's fault state during
the check (`fault2`), since the signature stage precedes the database.  A
non-ASCII replacement instead crashes `verify` with the uncaught
`TypeError` of `hmac.compare_digest`. -/
theorem signature_tamper_rejected (sig : List Char → List Char)
    (db : List CardRow) (fault fault2 : Bool) (card : List Char)
    (i : Nat) (c : Char) (res : VerifyResult)
    (hok : verify_card sig db fault card = .ok res)
    (hvalid : res.valid = true)
    (hi : i < (splitFirst '#' card).2.length)
    (hne : (splitFirst '#' card).2.get ⟨i, hi⟩ ≠ c)
    (hc : c.toNat < 128) :
    verify_card sig db fault2
        ((splitFirst '#' card).1 ++ '#' :: (splitFirst '#' card).2.set i c) =
      .ok ⟨false, none, 0, some .sigError⟩ := by
  obtain ⟨hin, h16, h10, hA, hB, hs⟩ :=
    verify_valid_spec sig db fault card res hok hvalid
  obtain ⟨-, hnot⟩ := splitFirst_recomp '#' card hin
  have hset : (splitFirst '#' card).2.set i c ≠ (splitFirst '#' card).2 := by
    intro he
    have hget : ((splitFirst '#' card).2.set i c)[i]? = some c :=
      List.getElem?_set_self hi
    rw [he, List.getElem?_eq_getElem hi] at hget
    refine hne ?_
    rw [List.get_eq_getElem]
    exact Option.some.inj hget
  unfold verify_card
  rw [if_neg (by simp)]
  simp only [splitFirst_append '#' (splitFirst '#' card).1
    ((splitFirst '#' card).2.set i c) hnot]
  rw [if_neg (by rw [List.length_set]; simp [h16, h10])]
  rw [if_neg (by
    simp only [not_not]
    exact ⟨isAsciiStr_set _ i c hA hc, hB⟩)]
  rw [if_pos (by rw [← hs]; exact hset)]

/-- Witness for C9's amended theorem at concrete inputs: the stored valid
card `cardA` (signature `"0000000000"`), tampering position 0 with the
ASCII character `'f'`, checked against a faulted store. -/
theorem signature_tamper_rejected_witness :
    verify_card sig0 dbA true
        ((splitFirst '#' cardA).1 ++ '#' :: (splitFirst '#' cardA).2.set 0 'f') =
      .ok ⟨false, none, 0, some .sigError⟩ :=
  signature_tamper_rejected sig0 dbA false true cardA 0 'f'
    ⟨true, some false, 0, none⟩ (by decide) rfl (by decide) (by decide) (by decide)

end CardSystem
